import Mathlib

/-!
# Verification of the rust-xgcode binary codec

Shallow embedding of src/lib.rs: the xgcode container format codec.
Byte streams are modelled as lists of naturals (each byte below 256;
the Rust stream carries u8 values, captured here by the ByteWf
predicate). Machine integers (u16, u32) are naturals; where the Rust
code truncates to a field width, the embedding takes the value modulo
the corresponding power of two. Fallible operations return Except.

The Rust reader (std::io::Read) is modelled by explicit state passing:
each primitive consumes bytes off the front of the list and returns
the parsed value together with the unconsumed tail. read_to_end takes
the whole remaining list. Any short read is the IoError case
(the Rust code wraps the underlying io::Error; only the discriminant
is observable to the properties verified here).
-/

namespace XG

/-- Embeds struct Header (src/lib.rs lines 7-42): the 12 numeric header
fields. Fields that are u32 in Rust: print_time, filament_0_usage,
filament_1_usage; the other nine are u16. -/
structure Header where
  print_time : Nat
  filament_0_usage : Nat
  filament_1_usage : Nat
  multi_extruder_type : Nat
  layer_height : Nat
  reserved0 : Nat
  perimeter_shells : Nat
  print_speed : Nat
  hotbed_temp : Nat
  extruder_0_temp : Nat
  extruder_1_temp : Nat
  reserved1 : Nat
deriving DecidableEq, Repr

/-- The Rust field types: the three u32 fields are below 2^32, the nine
u16 fields below 2^16. In Rust this holds by typing; here it is an
explicit predicate. -/
def Header.Wf (h : Header) : Prop :=
  h.print_time < 4294967296 ∧ h.filament_0_usage < 4294967296 ∧
  h.filament_1_usage < 4294967296 ∧ h.multi_extruder_type < 65536 ∧
  h.layer_height < 65536 ∧ h.reserved0 < 65536 ∧
  h.perimeter_shells < 65536 ∧ h.print_speed < 65536 ∧
  h.hotbed_temp < 65536 ∧ h.extruder_0_temp < 65536 ∧
  h.extruder_1_temp < 65536 ∧ h.reserved1 < 65536

instance (h : Header) : Decidable h.Wf := by
  unfold Header.Wf; infer_instance

/-- Embeds struct XGCode (src/lib.rs lines 45-52): header plus the two
opaque byte regions. XGCodeRef (lines 55-62) is the borrowed view of
the same data and collapses to this single type in the embedding. -/
structure XGCode where
  header : Header
  thumbnail : List Nat
  gcode : List Nat
deriving DecidableEq, Repr

/-- Embeds enum Error (src/lib.rs lines 66-75). The Rust IO variant
wraps a std::io::Error cause; the embedding keeps the discriminant
only (named IoError since plain IO is reserved notation here). -/
inductive Err where
  | BadMagic (bytes : List Nat)
  | BadHeaderSize (v : Nat)
  | ThumbSizeNegative (d : Int)
  | ThumbnailTooLarge (len : Nat)
  | SecondGOffsetNotFound
  | DataInReservedField (offset : Nat) (value : Nat)
  | IoError
deriving DecidableEq, Repr

/-- The 16-byte magic constant XGCODE_MAGIC (src/lib.rs line 77):
the bytes of "xgcode 1.0" followed by a newline and five NUL bytes. -/
def XGCODE_MAGIC : List Nat :=
  [0x78, 0x67, 0x63, 0x6F, 0x64, 0x65, 0x20, 0x31,
   0x2E, 0x30, 0x0A, 0x00, 0x00, 0x00, 0x00, 0x00]

/-- THUMB_OFFSET constant (src/lib.rs line 78). -/
def THUMB_OFFSET : Nat := 0x3A

/-- All entries of the stream are bytes (u8 in Rust). -/
def ByteWf (s : List Nat) : Prop := ∀ x ∈ s, x < 256

instance (s : List Nat) : Decidable (ByteWf s) := by
  unfold ByteWf; infer_instance

/-- Little-endian encoding of a value into w bytes, low byte first;
truncates the value modulo 2^(8w) as the Rust write_u32 / write_u16 do
by typing. -/
def leEnc : Nat → Nat → List Nat
  | 0, _ => []
  | w + 1, v => v % 256 :: leEnc w (v / 256)

/-- Models Read::read_exact into an n-byte buffer: succeeds with the
first n bytes and the unconsumed tail, fails with an IO error when the
stream is shorter than n. -/
def readExact (n : Nat) (s : List Nat) : Except Err (List Nat × List Nat) :=
  if n ≤ s.length then .ok (s.take n, s.drop n) else .error .IoError

/-- Models ReadBytesExt::read_u32::<LittleEndian>: consumes 4 bytes,
assembles them low byte first. -/
def readU32 (s : List Nat) : Except Err (Nat × List Nat) :=
  match s with
  | b0 :: b1 :: b2 :: b3 :: rest =>
      .ok (b0 + 256 * (b1 + 256 * (b2 + 256 * b3)), rest)
  | _ => .error .IoError

/-- Models ReadBytesExt::read_u16::<LittleEndian>: consumes 2 bytes,
assembles them low byte first. -/
def readU16 (s : List Nat) : Except Err (Nat × List Nat) :=
  match s with
  | b0 :: b1 :: rest => .ok (b0 + 256 * b1, rest)
  | _ => .error .IoError

/-- An early-return guard: proceed when the condition holds, otherwise
fail with the given error (the if-return pattern of the Rust code). -/
def check (c : Prop) [Decidable c] (e : Err) : Except Err Unit :=
  if c then .ok () else .error e

/-- Embeds XGCode::read (src/lib.rs lines 82-122). The state (the
unconsumed stream) is threaded explicitly: each step's second
component is the tail passed to the next step. The ThumbSizeNegative
payload (line 93, gcode_offset as i32 minus THUMB_OFFSET as i32) is
modelled as integer subtraction, which agrees with the Rust cast
arithmetic on the error branch where gcode_offset is below 0x3A.
read_to_end (line 118) takes the entire remaining stream. -/
def XGCode.read (s : List Nat) : Except Err XGCode :=
  (readExact 16 s).bind fun p1 =>
  (check (p1.1 = XGCODE_MAGIC) (.BadMagic p1.1)).bind fun _ =>
  (readU32 p1.2).bind fun p2 =>
  (check (p2.1 = THUMB_OFFSET) (.BadHeaderSize p2.1)).bind fun _ =>
  (readU32 p2.2).bind fun p3 =>
  (check (THUMB_OFFSET ≤ p3.1)
      (.ThumbSizeNegative ((p3.1 : Int) - (THUMB_OFFSET : Int)))).bind fun _ =>
  (readU32 p3.2).bind fun p4 =>
  (check (p3.1 = p4.1) .SecondGOffsetNotFound).bind fun _ =>
  (readU32 p4.2).bind fun q1 =>
  (readU32 q1.2).bind fun q2 =>
  (readU32 q2.2).bind fun q3 =>
  (readU16 q3.2).bind fun q4 =>
  (readU16 q4.2).bind fun q5 =>
  (readU16 q5.2).bind fun q6 =>
  (readU16 q6.2).bind fun q7 =>
  (readU16 q7.2).bind fun q8 =>
  (readU16 q8.2).bind fun q9 =>
  (readU16 q9.2).bind fun q10 =>
  (readU16 q10.2).bind fun q11 =>
  (readU16 q11.2).bind fun q12 =>
  (readExact (p3.1 - THUMB_OFFSET) q12.2).bind fun pt =>
  .ok { header := { print_time := q1.1, filament_0_usage := q2.1,
                    filament_1_usage := q3.1, multi_extruder_type := q4.1,
                    layer_height := q5.1, reserved0 := q6.1,
                    perimeter_shells := q7.1, print_speed := q8.1,
                    hotbed_temp := q9.1, extruder_0_temp := q10.1,
                    extruder_1_temp := q11.1, reserved1 := q12.1 },
        thumbnail := pt.1, gcode := pt.2 }

/-- The header fields serialized in the fixed order and widths of
XGCodeRef::write (src/lib.rs lines 147-158): the three u32 fields,
then the nine u16 fields, all little-endian. -/
def Header.bytes (h : Header) : List Nat :=
  leEnc 4 h.print_time ++ leEnc 4 h.filament_0_usage ++
  leEnc 4 h.filament_1_usage ++ leEnc 2 h.multi_extruder_type ++
  leEnc 2 h.layer_height ++ leEnc 2 h.reserved0 ++
  leEnc 2 h.perimeter_shells ++ leEnc 2 h.print_speed ++
  leEnc 2 h.hotbed_temp ++ leEnc 2 h.extruder_0_temp ++
  leEnc 2 h.extruder_1_temp ++ leEnc 2 h.reserved1

/-- The byte stream produced by a successful write: magic, the fixed
thumbnail offset, the payload offset twice, the header fields, the
thumbnail and the payload (src/lib.rs lines 142-161). -/
def serialize (x : XGCode) : List Nat :=
  XGCODE_MAGIC ++ leEnc 4 THUMB_OFFSET ++
  leEnc 4 (THUMB_OFFSET + x.thumbnail.length) ++
  leEnc 4 (THUMB_OFFSET + x.thumbnail.length) ++
  x.header.bytes ++ x.thumbnail ++ x.gcode

/-- Embeds XGCodeRef::write (src/lib.rs lines 137-165); XGCode::write
(lines 128-132) delegates to it via as_ref and is the same function
here. The size check (lines 139-140) precedes all writes, so on
failure nothing is written: the embedding returns the error with no
output bytes. On success the output is the full concatenation. -/
def XGCode.write (x : XGCode) : Except Err (List Nat) :=
  let gcode_offset := THUMB_OFFSET + x.thumbnail.length
  if gcode_offset > 4294967295 then
    .error (.ThumbnailTooLarge x.thumbnail.length)
  else
    .ok (serialize x)


/-! ## Basic lemmas about the primitives -/

theorem step_ok {α β : Type} (a : α) (f : α → Except Err β) :
    (Except.ok a).bind f = f a := rfl

theorem bind_eq_ok {α β : Type} {x : Except Err α} {f : α → Except Err β}
    {b : β} (h : x.bind f = .ok b) : ∃ a, x = .ok a ∧ f a = .ok b := by
  cases x with
  | error e => simp [Except.bind] at h
  | ok a => exact ⟨a, rfl, h⟩

theorem check_eq_ok {c : Prop} [Decidable c] (hc : c) (e : Err) :
    check c e = .ok () := by simp [check, hc]

theorem check_eq_error {c : Prop} [Decidable c] (hc : ¬ c) (e : Err) :
    check c e = .error e := by simp [check, hc]

theorem check_ok_elim {c : Prop} [Decidable c] {e : Err} {u : Unit}
    (h : check c e = .ok u) : c := by
  by_contra hc
  rw [check_eq_error hc] at h
  exact Except.noConfusion h

theorem leEnc_four (v : Nat) :
    leEnc 4 v = [v % 256, v / 256 % 256, v / 256 / 256 % 256,
                 v / 256 / 256 / 256 % 256] := rfl

theorem leEnc_two (v : Nat) : leEnc 2 v = [v % 256, v / 256 % 256] := rfl

theorem readExact_self (a r : List Nat) :
    readExact a.length (a ++ r) = .ok (a, r) := by
  simp [readExact]

theorem readExact_magic (r : List Nat) :
    readExact 16 (XGCODE_MAGIC ++ r) = .ok (XGCODE_MAGIC, r) := by
  rw [show (16 : Nat) = XGCODE_MAGIC.length from rfl]
  exact readExact_self XGCODE_MAGIC r

theorem readU32_leEnc (v : Nat) (r : List Nat) (hv : v < 4294967296) :
    readU32 (leEnc 4 v ++ r) = .ok (v, r) := by
  rw [leEnc_four]
  simp only [List.cons_append, List.nil_append, readU32, Except.ok.injEq,
    Prod.mk.injEq]
  exact ⟨by omega, trivial⟩

theorem readU16_leEnc (v : Nat) (r : List Nat) (hv : v < 65536) :
    readU16 (leEnc 2 v ++ r) = .ok (v, r) := by
  rw [leEnc_two]
  simp only [List.cons_append, List.nil_append, readU16, Except.ok.injEq,
    Prod.mk.injEq]
  exact ⟨by omega, trivial⟩

theorem ByteWf_append {a b : List Nat} (h : ByteWf (a ++ b)) :
    ByteWf a ∧ ByteWf b := by
  constructor <;> intro x hx
  · exact h x (List.mem_append_left b hx)
  · exact h x (List.mem_append_right a hx)

theorem readExact_ok {n : Nat} {s : List Nat} {p : List Nat × List Nat}
    (h : readExact n s = .ok p) :
    s = p.1 ++ p.2 ∧ p.1.length = n := by
  unfold readExact at h
  split at h
  · rename_i hle
    rw [Except.ok.injEq] at h
    subst h
    exact ⟨(List.take_append_drop n s).symm, by simp [List.length_take]; omega⟩
  · exact Except.noConfusion h

theorem readU32_ok {s : List Nat} {p : Nat × List Nat} (hb : ByteWf s)
    (h : readU32 s = .ok p) :
    s = leEnc 4 p.1 ++ p.2 ∧ p.1 < 4294967296 := by
  match s with
  | [] => exact Except.noConfusion h
  | [b0] => exact Except.noConfusion h
  | [b0, b1] => exact Except.noConfusion h
  | [b0, b1, b2] => exact Except.noConfusion h
  | b0 :: b1 :: b2 :: b3 :: rest =>
    simp only [readU32, Except.ok.injEq] at h
    subst h
    have h0 : b0 < 256 := hb b0 (by simp)
    have h1 : b1 < 256 := hb b1 (by simp)
    have h2 : b2 < 256 := hb b2 (by simp)
    have h3 : b3 < 256 := hb b3 (by simp)
    rw [leEnc_four]
    simp only [List.cons_append, List.nil_append, List.cons.injEq]
    refine ⟨⟨by omega, by omega, by omega, by omega, trivial⟩, by omega⟩

theorem readU16_ok {s : List Nat} {p : Nat × List Nat} (hb : ByteWf s)
    (h : readU16 s = .ok p) :
    s = leEnc 2 p.1 ++ p.2 ∧ p.1 < 65536 := by
  match s with
  | [] => exact Except.noConfusion h
  | [b0] => exact Except.noConfusion h
  | b0 :: b1 :: rest =>
    simp only [readU16, Except.ok.injEq] at h
    subst h
    have h0 : b0 < 256 := hb b0 (by simp)
    have h1 : b1 < 256 := hb b1 (by simp)
    rw [leEnc_two]
    simp only [List.cons_append, List.nil_append, List.cons.injEq]
    refine ⟨⟨by omega, by omega, trivial⟩, by omega⟩

/-! ## Round trip: decoding a serialized document -/

/-- Decoding the canonical serialization of a document recovers the
document: every header field, the thumbnail and the payload. -/
theorem read_serialize (h : Header) (t g : List Nat) (hwf : h.Wf)
    (hlen : THUMB_OFFSET + t.length ≤ 4294967295) :
    XGCode.read (serialize ⟨h, t, g⟩) = .ok ⟨h, t, g⟩ := by
  obtain ⟨w1, w2, w3, w4, w5, w6, w7, w8, w9, w10, w11, w12⟩ := hwf
  have hTO : THUMB_OFFSET < 4294967296 := by decide
  have hoff : THUMB_OFFSET + t.length < 4294967296 := by omega
  have hle : THUMB_OFFSET ≤ THUMB_OFFSET + t.length := Nat.le_add_right _ _
  simp only [XGCode.read, serialize, Header.bytes, List.append_assoc,
    readExact_magic, step_ok, readU32_leEnc _ _ hTO, readU32_leEnc _ _ hoff,
    readU32_leEnc _ _ w1, readU32_leEnc _ _ w2, readU32_leEnc _ _ w3,
    readU16_leEnc _ _ w4, readU16_leEnc _ _ w5, readU16_leEnc _ _ w6,
    readU16_leEnc _ _ w7, readU16_leEnc _ _ w8, readU16_leEnc _ _ w9,
    readU16_leEnc _ _ w10, readU16_leEnc _ _ w11, readU16_leEnc _ _ w12,
    check_eq_ok rfl, check_eq_ok hle, check_eq_ok trivial,
    Nat.add_sub_cancel_left, readExact_self]

/-- Canonicality of decode: a successfully decoded byte stream is
exactly the canonical serialization of the resulting document, the
header fields are in range, and the payload offset fits in 32 bits. -/
theorem read_ok_inv {s : List Nat} {D : XGCode} (hb : ByteWf s)
    (h : XGCode.read s = .ok D) :
    s = serialize D ∧ D.header.Wf ∧
      THUMB_OFFSET + D.thumbnail.length ≤ 4294967295 := by
  unfold XGCode.read at h
  obtain ⟨p1, hr1, h⟩ := bind_eq_ok h
  obtain ⟨hs1, hl1⟩ := readExact_ok hr1
  have hbw1 : ByteWf p1.2 := (ByteWf_append (hs1 ▸ hb)).2
  obtain ⟨u1, hc1, h⟩ := bind_eq_ok h
  have hmagic : p1.1 = XGCODE_MAGIC := check_ok_elim hc1
  obtain ⟨p2, hr2, h⟩ := bind_eq_ok h
  obtain ⟨hs2, hv2⟩ := readU32_ok hbw1 hr2
  have hbw2 : ByteWf p2.2 := (ByteWf_append (hs2 ▸ hbw1)).2
  obtain ⟨u2, hc2, h⟩ := bind_eq_ok h
  have hthumb : p2.1 = THUMB_OFFSET := check_ok_elim hc2
  obtain ⟨p3, hr3, h⟩ := bind_eq_ok h
  obtain ⟨hs3, hv3⟩ := readU32_ok hbw2 hr3
  have hbw3 : ByteWf p3.2 := (ByteWf_append (hs3 ▸ hbw2)).2
  obtain ⟨u3, hc3, h⟩ := bind_eq_ok h
  have hge : THUMB_OFFSET ≤ p3.1 := check_ok_elim hc3
  obtain ⟨p4, hr4, h⟩ := bind_eq_ok h
  obtain ⟨hs4, hv4⟩ := readU32_ok hbw3 hr4
  have hbw4 : ByteWf p4.2 := (ByteWf_append (hs4 ▸ hbw3)).2
  obtain ⟨u4, hc4, h⟩ := bind_eq_ok h
  have hoff2 : p3.1 = p4.1 := check_ok_elim hc4
  obtain ⟨q1, hq1, h⟩ := bind_eq_ok h
  obtain ⟨hsq1, hvq1⟩ := readU32_ok hbw4 hq1
  have hbq1 : ByteWf q1.2 := (ByteWf_append (hsq1 ▸ hbw4)).2
  obtain ⟨q2, hq2, h⟩ := bind_eq_ok h
  obtain ⟨hsq2, hvq2⟩ := readU32_ok hbq1 hq2
  have hbq2 : ByteWf q2.2 := (ByteWf_append (hsq2 ▸ hbq1)).2
  obtain ⟨q3, hq3, h⟩ := bind_eq_ok h
  obtain ⟨hsq3, hvq3⟩ := readU32_ok hbq2 hq3
  have hbq3 : ByteWf q3.2 := (ByteWf_append (hsq3 ▸ hbq2)).2
  obtain ⟨q4, hq4, h⟩ := bind_eq_ok h
  obtain ⟨hsq4, hvq4⟩ := readU16_ok hbq3 hq4
  have hbq4 : ByteWf q4.2 := (ByteWf_append (hsq4 ▸ hbq3)).2
  obtain ⟨q5, hq5, h⟩ := bind_eq_ok h
  obtain ⟨hsq5, hvq5⟩ := readU16_ok hbq4 hq5
  have hbq5 : ByteWf q5.2 := (ByteWf_append (hsq5 ▸ hbq4)).2
  obtain ⟨q6, hq6, h⟩ := bind_eq_ok h
  obtain ⟨hsq6, hvq6⟩ := readU16_ok hbq5 hq6
  have hbq6 : ByteWf q6.2 := (ByteWf_append (hsq6 ▸ hbq5)).2
  obtain ⟨q7, hq7, h⟩ := bind_eq_ok h
  obtain ⟨hsq7, hvq7⟩ := readU16_ok hbq6 hq7
  have hbq7 : ByteWf q7.2 := (ByteWf_append (hsq7 ▸ hbq6)).2
  obtain ⟨q8, hq8, h⟩ := bind_eq_ok h
  obtain ⟨hsq8, hvq8⟩ := readU16_ok hbq7 hq8
  have hbq8 : ByteWf q8.2 := (ByteWf_append (hsq8 ▸ hbq7)).2
  obtain ⟨q9, hq9, h⟩ := bind_eq_ok h
  obtain ⟨hsq9, hvq9⟩ := readU16_ok hbq8 hq9
  have hbq9 : ByteWf q9.2 := (ByteWf_append (hsq9 ▸ hbq8)).2
  obtain ⟨q10, hq10, h⟩ := bind_eq_ok h
  obtain ⟨hsq10, hvq10⟩ := readU16_ok hbq9 hq10
  have hbq10 : ByteWf q10.2 := (ByteWf_append (hsq10 ▸ hbq9)).2
  obtain ⟨q11, hq11, h⟩ := bind_eq_ok h
  obtain ⟨hsq11, hvq11⟩ := readU16_ok hbq10 hq11
  have hbq11 : ByteWf q11.2 := (ByteWf_append (hsq11 ▸ hbq10)).2
  obtain ⟨q12, hq12, h⟩ := bind_eq_ok h
  obtain ⟨hsq12, hvq12⟩ := readU16_ok hbq11 hq12
  obtain ⟨pt, hpt, h⟩ := bind_eq_ok h
  obtain ⟨hspt, hlpt⟩ := readExact_ok hpt
  rw [Except.ok.injEq] at h
  subst h
  have hofflen : THUMB_OFFSET + pt.1.length = p3.1 := by omega
  refine ⟨?_, ?_, ?_⟩
  · rw [hs1, hmagic, hs2, hthumb, hs3, hs4, ← hoff2, hsq1, hsq2, hsq3,
      hsq4, hsq5, hsq6, hsq7, hsq8, hsq9, hsq10, hsq11, hsq12, hspt]
    simp only [serialize, Header.bytes, List.append_assoc, hofflen]
  · exact ⟨hvq1, hvq2, hvq3, hvq4, hvq5, hvq6, hvq7, hvq8, hvq9, hvq10,
      hvq11, hvq12⟩
  · show THUMB_OFFSET + pt.1.length ≤ 4294967295
    omega

/-! ## Further helper lemmas -/

theorem step_error {α β : Type} (e : Err) (f : α → Except Err β) :
    (Except.error e : Except Err α).bind f = .error e := rfl

theorem readExact_of_len {n : Nat} {a : List Nat} (r : List Nat)
    (h : a.length = n) : readExact n (a ++ r) = .ok (a, r) :=
  h ▸ readExact_self a r

theorem readExact_short {n : Nat} {s : List Nat} (h : s.length < n) :
    readExact n s = .error .IoError := by
  unfold readExact
  rw [if_neg (by omega)]

theorem leEnc_length (w v : Nat) : (leEnc w v).length = w := by
  induction w generalizing v with
  | zero => rfl
  | succ n ih => simp [leEnc, ih]

theorem XGCODE_MAGIC_length : XGCODE_MAGIC.length = 16 := rfl

theorem Header.bytes_length (h : Header) : h.bytes.length = 30 := by
  simp [Header.bytes, List.length_append, leEnc_length]

theorem drop_take_sandwich {α : Type} (a b c : List α) {n m : Nat}
    (ha : a.length = n) (hb : b.length = m) :
    ((a ++ (b ++ c)).drop n).take m = b := by
  rw [List.drop_left' ha, List.take_left' hb]

/-- The result never carries the DataInReservedField error. -/
def NoRes {α : Type} (x : Except Err α) : Prop :=
  ∀ o v : Nat, x ≠ .error (.DataInReservedField o v)

theorem noRes_ok {α : Type} (a : α) : NoRes (.ok a : Except Err α) :=
  fun _ _ h => Except.noConfusion h

theorem noRes_bind {α β : Type} {x : Except Err α} {f : α → Except Err β}
    (hx : NoRes x) (hf : ∀ a, NoRes (f a)) : NoRes (x.bind f) := by
  intro o v
  cases x with
  | error e =>
    rw [step_error]
    simp only [ne_eq, Except.error.injEq]
    intro hh
    exact hx o v (by rw [hh])
  | ok a => rw [step_ok]; exact hf a o v

theorem noRes_readExact (n : Nat) (s : List Nat) : NoRes (readExact n s) := by
  intro o v
  unfold readExact
  split <;> simp

theorem noRes_readU32 (s : List Nat) : NoRes (readU32 s) := by
  intro o v
  unfold readU32
  split <;> simp

theorem noRes_readU16 (s : List Nat) : NoRes (readU16 s) := by
  intro o v
  unfold readU16
  split <;> simp

theorem noRes_check {c : Prop} [Decidable c] {e : Err}
    (he : ∀ o v : Nat, e ≠ .DataInReservedField o v) : NoRes (check c e) := by
  intro o v
  unfold check
  split
  · simp
  · simp only [ne_eq, Except.error.injEq]
    exact fun he2 => he o v he2

/-- The base decode path never produces DataInReservedField on any
input: that variant is defined (src/lib.rs line 73) but unused by
XGCode::read. -/
theorem read_no_reserved_err (s : List Nat) : NoRes (XGCode.read s) := by
  unfold XGCode.read
  refine noRes_bind (noRes_readExact 16 s) fun p1 => ?_
  refine noRes_bind (noRes_check fun o v h => Err.noConfusion h) fun u1 => ?_
  refine noRes_bind (noRes_readU32 p1.2) fun p2 => ?_
  refine noRes_bind (noRes_check fun o v h => Err.noConfusion h) fun u2 => ?_
  refine noRes_bind (noRes_readU32 p2.2) fun p3 => ?_
  refine noRes_bind (noRes_check fun o v h => Err.noConfusion h) fun u3 => ?_
  refine noRes_bind (noRes_readU32 p3.2) fun p4 => ?_
  refine noRes_bind (noRes_check fun o v h => Err.noConfusion h) fun u4 => ?_
  refine noRes_bind (noRes_readU32 p4.2) fun q1 => ?_
  refine noRes_bind (noRes_readU32 q1.2) fun q2 => ?_
  refine noRes_bind (noRes_readU32 q2.2) fun q3 => ?_
  refine noRes_bind (noRes_readU16 q3.2) fun q4 => ?_
  refine noRes_bind (noRes_readU16 q4.2) fun q5 => ?_
  refine noRes_bind (noRes_readU16 q5.2) fun q6 => ?_
  refine noRes_bind (noRes_readU16 q6.2) fun q7 => ?_
  refine noRes_bind (noRes_readU16 q7.2) fun q8 => ?_
  refine noRes_bind (noRes_readU16 q8.2) fun q9 => ?_
  refine noRes_bind (noRes_readU16 q9.2) fun q10 => ?_
  refine noRes_bind (noRes_readU16 q10.2) fun q11 => ?_
  refine noRes_bind (noRes_readU16 q11.2) fun q12 => ?_
  refine noRes_bind (noRes_readExact _ q12.2) fun pt => ?_
  exact noRes_ok _

/-! ## The claims -/

def D0 : XGCode := ⟨⟨0, 0, 0, 0, 0, 0, 0, 0, 0, 0, 0, 0⟩, [], []⟩

def S0 : List Nat := serialize D0

/-- C1: for every byte stream on which decode succeeds producing a
document, encoding that document succeeds and reproduces the input
byte for byte, and decoding that output again yields the same
document. -/
theorem claim_c1 (s : List Nat) (D : XGCode) (hb : ByteWf s)
    (h : XGCode.read s = .ok D) :
    XGCode.write D = .ok s ∧ XGCode.read s = .ok D := by
  obtain ⟨hser, hwf, hlen⟩ := read_ok_inv hb h
  refine ⟨?_, h⟩
  simp only [XGCode.write]
  rw [if_neg (by omega), hser]

theorem claim_c1_witness :
    ByteWf S0 ∧ XGCode.read S0 = .ok D0 ∧
      (XGCode.write D0 = .ok S0 ∧ XGCode.read S0 = .ok D0) :=
  ⟨by decide, by rfl, claim_c1 S0 D0 (by decide) (by rfl)⟩

/-- C2: for every document whose thumbnail length keeps the payload
offset within 32 bits, encoding succeeds and decoding the encoded
bytes recovers the document exactly, every header field, thumbnail
and payload included. (The header well-formedness hypothesis states
the Rust field types u32/u16.) -/
theorem claim_c2 (h : Header) (t g : List Nat) (hwf : h.Wf)
    (hlen : THUMB_OFFSET + t.length ≤ 4294967295) :
    ∃ out, XGCode.write ⟨h, t, g⟩ = .ok out ∧
      XGCode.read out = .ok (⟨h, t, g⟩ : XGCode) := by
  refine ⟨serialize ⟨h, t, g⟩, ?_, read_serialize h t g hwf hlen⟩
  simp only [XGCode.write]
  rw [if_neg (by omega)]

theorem claim_c2_witness :
    Header.Wf ⟨0, 0, 0, 0, 0, 0, 0, 0, 0, 0, 0, 0⟩ ∧
      THUMB_OFFSET + ([] : List Nat).length ≤ 4294967295 ∧
      ∃ out, XGCode.write ⟨⟨0, 0, 0, 0, 0, 0, 0, 0, 0, 0, 0, 0⟩, [], []⟩ = .ok out ∧
        XGCode.read out = .ok (⟨⟨0, 0, 0, 0, 0, 0, 0, 0, 0, 0, 0, 0⟩, [], []⟩ : XGCode) :=
  ⟨by decide, by decide,
   claim_c2 ⟨0, 0, 0, 0, 0, 0, 0, 0, 0, 0, 0, 0⟩ [] [] (by decide) (by decide)⟩

/-- C3: on every successful encode the output follows the fixed
layout: magic at 0x00, the constant 0x3A little-endian at 0x10, the
payload offset 0x3A + thumbnail length at both 0x14 and 0x18, the 12
header fields in table order and widths (Header.bytes) at 0x1C, the
thumbnail verbatim at 0x3A, the payload verbatim after it, and total
length 0x3A + thumbnail length + payload length. -/
theorem claim_c3 (h : Header) (t g out : List Nat)
    (hw : XGCode.write ⟨h, t, g⟩ = .ok out) :
    out = XGCODE_MAGIC ++ leEnc 4 0x3A ++ leEnc 4 (0x3A + t.length) ++
        leEnc 4 (0x3A + t.length) ++ h.bytes ++ t ++ g ∧
      out.take 16 = XGCODE_MAGIC ∧
      (out.drop 0x10).take 4 = leEnc 4 0x3A ∧
      (out.drop 0x14).take 4 = leEnc 4 (0x3A + t.length) ∧
      (out.drop 0x18).take 4 = leEnc 4 (0x3A + t.length) ∧
      (out.drop 0x1C).take 30 = h.bytes ∧
      (out.drop 0x3A).take t.length = t ∧
      out.drop (0x3A + t.length) = g ∧
      out.length = 0x3A + t.length + g.length := by
  have hser : out = serialize ⟨h, t, g⟩ := by
    simp only [XGCode.write] at hw
    split at hw
    · exact Except.noConfusion hw
    · rw [Except.ok.injEq] at hw
      exact hw.symm
  subst hser
  refine ⟨?_, ?_, ?_, ?_, ?_, ?_, ?_, ?_, ?_⟩
  · simp [serialize, THUMB_OFFSET, List.append_assoc]
  · have e : serialize (⟨h, t, g⟩ : XGCode) =
        XGCODE_MAGIC ++ (leEnc 4 THUMB_OFFSET ++ (leEnc 4 (THUMB_OFFSET + t.length) ++
          (leEnc 4 (THUMB_OFFSET + t.length) ++ (h.bytes ++ (t ++ g))))) := by
      simp [serialize, List.append_assoc]
    rw [e]
    exact List.take_left' XGCODE_MAGIC_length
  · have e : serialize (⟨h, t, g⟩ : XGCode) =
        XGCODE_MAGIC ++ (leEnc 4 THUMB_OFFSET ++ (leEnc 4 (THUMB_OFFSET + t.length) ++
          (leEnc 4 (THUMB_OFFSET + t.length) ++ (h.bytes ++ (t ++ g))))) := by
      simp [serialize, List.append_assoc]
    rw [e]
    exact drop_take_sandwich _ _ _ XGCODE_MAGIC_length (leEnc_length 4 _)
  · have e : serialize (⟨h, t, g⟩ : XGCode) =
        (XGCODE_MAGIC ++ leEnc 4 THUMB_OFFSET) ++ (leEnc 4 (THUMB_OFFSET + t.length) ++
          (leEnc 4 (THUMB_OFFSET + t.length) ++ (h.bytes ++ (t ++ g)))) := by
      simp [serialize, List.append_assoc]
    rw [e]
    exact drop_take_sandwich _ _ _
      (by simp [List.length_append, XGCODE_MAGIC_length, leEnc_length])
      (leEnc_length 4 _)
  · have e : serialize (⟨h, t, g⟩ : XGCode) =
        (XGCODE_MAGIC ++ leEnc 4 THUMB_OFFSET ++ leEnc 4 (THUMB_OFFSET + t.length)) ++
          (leEnc 4 (THUMB_OFFSET + t.length) ++ (h.bytes ++ (t ++ g))) := by
      simp [serialize, List.append_assoc]
    rw [e]
    exact drop_take_sandwich _ _ _
      (by simp [List.length_append, XGCODE_MAGIC_length, leEnc_length])
      (leEnc_length 4 _)
  · have e : serialize (⟨h, t, g⟩ : XGCode) =
        (XGCODE_MAGIC ++ leEnc 4 THUMB_OFFSET ++ leEnc 4 (THUMB_OFFSET + t.length) ++
          leEnc 4 (THUMB_OFFSET + t.length)) ++ (h.bytes ++ (t ++ g)) := by
      simp [serialize, List.append_assoc]
    rw [e]
    exact drop_take_sandwich _ _ _
      (by simp [List.length_append, XGCODE_MAGIC_length, leEnc_length])
      (Header.bytes_length h)
  · have e : serialize (⟨h, t, g⟩ : XGCode) =
        (XGCODE_MAGIC ++ leEnc 4 THUMB_OFFSET ++ leEnc 4 (THUMB_OFFSET + t.length) ++
          leEnc 4 (THUMB_OFFSET + t.length) ++ h.bytes) ++ (t ++ g) := by
      simp [serialize, List.append_assoc]
    rw [e]
    exact drop_take_sandwich _ _ _
      (by simp [List.length_append, XGCODE_MAGIC_length, leEnc_length,
        Header.bytes_length])
      rfl
  · have e : serialize (⟨h, t, g⟩ : XGCode) =
        (XGCODE_MAGIC ++ leEnc 4 THUMB_OFFSET ++ leEnc 4 (THUMB_OFFSET + t.length) ++
          leEnc 4 (THUMB_OFFSET + t.length) ++ h.bytes ++ t) ++ g := by
      simp [serialize, List.append_assoc]
    rw [e]
    exact List.drop_left'
      (by simp [List.length_append, XGCODE_MAGIC_length, leEnc_length,
        Header.bytes_length]; omega)
  · simp [serialize, List.length_append, XGCODE_MAGIC_length, leEnc_length,
      Header.bytes_length]
    omega

theorem claim_c3_witness :
    XGCode.write ⟨⟨0, 0, 0, 0, 0, 0, 0, 0, 0, 0, 0, 0⟩, [1, 2], [3]⟩ =
        .ok (serialize ⟨⟨0, 0, 0, 0, 0, 0, 0, 0, 0, 0, 0, 0⟩, [1, 2], [3]⟩) ∧
      (serialize ⟨⟨0, 0, 0, 0, 0, 0, 0, 0, 0, 0, 0, 0⟩, [1, 2], [3]⟩ =
          XGCODE_MAGIC ++ leEnc 4 0x3A ++ leEnc 4 (0x3A + [1, 2].length) ++
            leEnc 4 (0x3A + [1, 2].length) ++
            Header.bytes ⟨0, 0, 0, 0, 0, 0, 0, 0, 0, 0, 0, 0⟩ ++ [1, 2] ++ [3] ∧
        (serialize ⟨⟨0, 0, 0, 0, 0, 0, 0, 0, 0, 0, 0, 0⟩, [1, 2], [3]⟩).take 16 =
          XGCODE_MAGIC ∧
        ((serialize ⟨⟨0, 0, 0, 0, 0, 0, 0, 0, 0, 0, 0, 0⟩, [1, 2], [3]⟩).drop 0x10).take 4 =
          leEnc 4 0x3A ∧
        ((serialize ⟨⟨0, 0, 0, 0, 0, 0, 0, 0, 0, 0, 0, 0⟩, [1, 2], [3]⟩).drop 0x14).take 4 =
          leEnc 4 (0x3A + [1, 2].length) ∧
        ((serialize ⟨⟨0, 0, 0, 0, 0, 0, 0, 0, 0, 0, 0, 0⟩, [1, 2], [3]⟩).drop 0x18).take 4 =
          leEnc 4 (0x3A + [1, 2].length) ∧
        ((serialize ⟨⟨0, 0, 0, 0, 0, 0, 0, 0, 0, 0, 0, 0⟩, [1, 2], [3]⟩).drop 0x1C).take 30 =
          Header.bytes ⟨0, 0, 0, 0, 0, 0, 0, 0, 0, 0, 0, 0⟩ ∧
        ((serialize ⟨⟨0, 0, 0, 0, 0, 0, 0, 0, 0, 0, 0, 0⟩, [1, 2], [3]⟩).drop 0x3A).take
            ([1, 2] : List Nat).length = [1, 2] ∧
        (serialize ⟨⟨0, 0, 0, 0, 0, 0, 0, 0, 0, 0, 0, 0⟩, [1, 2], [3]⟩).drop
            (0x3A + ([1, 2] : List Nat).length) = [3] ∧
        (serialize ⟨⟨0, 0, 0, 0, 0, 0, 0, 0, 0, 0, 0, 0⟩, [1, 2], [3]⟩).length =
          0x3A + ([1, 2] : List Nat).length + ([3] : List Nat).length) :=
  ⟨by rfl, claim_c3 ⟨0, 0, 0, 0, 0, 0, 0, 0, 0, 0, 0, 0⟩ [1, 2] [3] _ (by rfl)⟩

/-- C8: reserved0 and reserved1 survive an encode-decode round trip
unchanged for arbitrary values, and the decode path never returns
DataInReservedField on any input. -/
theorem claim_c8 (h : Header) (t g : List Nat) (hwf : h.Wf)
    (hlen : THUMB_OFFSET + t.length ≤ 4294967295) :
    (∃ out D, XGCode.write ⟨h, t, g⟩ = .ok out ∧ XGCode.read out = .ok D ∧
        D.header.reserved0 = h.reserved0 ∧ D.header.reserved1 = h.reserved1) ∧
      ∀ (s : List Nat) (o v : Nat),
        XGCode.read s ≠ .error (.DataInReservedField o v) := by
  constructor
  · refine ⟨serialize ⟨h, t, g⟩, ⟨h, t, g⟩, ?_,
      read_serialize h t g hwf hlen, rfl, rfl⟩
    simp only [XGCode.write]
    rw [if_neg (by omega)]
  · exact fun s o v => read_no_reserved_err s o v

theorem claim_c8_witness :
    Header.Wf ⟨0, 0, 0, 0, 0, 7, 0, 0, 0, 0, 0, 9⟩ ∧
      THUMB_OFFSET + ([1] : List Nat).length ≤ 4294967295 ∧
      ((∃ out D,
          XGCode.write ⟨⟨0, 0, 0, 0, 0, 7, 0, 0, 0, 0, 0, 9⟩, [1], [2]⟩ = .ok out ∧
            XGCode.read out = .ok D ∧ D.header.reserved0 = 7 ∧
            D.header.reserved1 = 9) ∧
        ∀ (s : List Nat) (o v : Nat),
          XGCode.read s ≠ .error (.DataInReservedField o v)) :=
  ⟨by decide, by decide,
   claim_c8 ⟨0, 0, 0, 0, 0, 7, 0, 0, 0, 0, 0, 9⟩ [1] [2] (by decide) (by decide)⟩

/-- C4: when 0x3A plus the thumbnail length exceeds the largest
32-bit value, encode fails with ThumbnailTooLarge carrying the
thumbnail length and produces no output bytes (the error result
carries none; in the source the size check precedes every write). -/
theorem claim_c4 (h : Header) (t g : List Nat)
    (hlen : 4294967295 < THUMB_OFFSET + t.length) :
    XGCode.write ⟨h, t, g⟩ = .error (.ThumbnailTooLarge t.length) := by
  simp only [XGCode.write]
  rw [if_pos (by omega)]

theorem claim_c4_witness :
    4294967295 < THUMB_OFFSET + (List.replicate 4294967296 0).length ∧
      XGCode.write ⟨⟨0, 0, 0, 0, 0, 0, 0, 0, 0, 0, 0, 0⟩,
          List.replicate 4294967296 0, []⟩ =
        .error (.ThumbnailTooLarge (List.replicate 4294967296 0).length) :=
  ⟨by rw [List.length_replicate]; decide,
   claim_c4 ⟨0, 0, 0, 0, 0, 0, 0, 0, 0, 0, 0, 0⟩ _ []
     (by rw [List.length_replicate]; decide)⟩

/-- C5: a stream of at least 16 bytes whose first 16 bytes differ
from the magic makes decode fail with BadMagic carrying exactly the
16 bytes read; the result is the same whatever follows those 16
bytes, so nothing beyond them is consumed. -/
theorem claim_c5 (s : List Nat) (h16 : 16 ≤ s.length)
    (hm : s.take 16 ≠ XGCODE_MAGIC) :
    XGCode.read s = .error (.BadMagic (s.take 16)) ∧
      ∀ t : List Nat,
        XGCode.read (s.take 16 ++ t) = .error (.BadMagic (s.take 16)) := by
  have hlen : (s.take 16).length = 16 := by
    rw [List.length_take]
    omega
  constructor
  · unfold XGCode.read
    rw [show readExact 16 s = .ok (s.take 16, s.drop 16) from by
          unfold readExact; rw [if_pos h16],
        step_ok, check_eq_error hm, step_error]
  · intro t
    unfold XGCode.read
    rw [readExact_of_len t hlen, step_ok, check_eq_error hm, step_error]

theorem claim_c5_witness :
    16 ≤ (List.replicate 20 0).length ∧
      (List.replicate 20 0).take 16 ≠ XGCODE_MAGIC ∧
      (XGCode.read (List.replicate 20 0) =
          .error (.BadMagic ((List.replicate 20 0).take 16)) ∧
        ∀ t : List Nat,
          XGCode.read ((List.replicate 20 0).take 16 ++ t) =
            .error (.BadMagic ((List.replicate 20 0).take 16))) :=
  ⟨by decide, by decide, claim_c5 (List.replicate 20 0) (by decide) (by decide)⟩

/-- C6: with correct magic and thumbnail offset 0x3A, a payload
offset below 0x3A makes decode fail with ThumbSizeNegative carrying
the signed difference, whatever the rest of the stream holds - in
particular before the second offset field is read, so this error
precedes SecondGOffsetNotFound and no thumbnail bytes are read. -/
theorem claim_c6 (off1 : Nat) (rest : List Nat) (hlt : off1 < THUMB_OFFSET) :
    XGCode.read (XGCODE_MAGIC ++ leEnc 4 THUMB_OFFSET ++ leEnc 4 off1 ++ rest) =
      .error (.ThumbSizeNegative ((off1 : Int) - (THUMB_OFFSET : Int))) := by
  have hTO : THUMB_OFFSET < 4294967296 := by decide
  have h1 : off1 < 4294967296 := by
    have : THUMB_OFFSET = 58 := rfl
    omega
  unfold XGCode.read
  simp only [List.append_assoc]
  rw [readExact_magic, step_ok, check_eq_ok rfl, step_ok,
    readU32_leEnc _ _ hTO, step_ok, check_eq_ok rfl, step_ok,
    readU32_leEnc _ _ h1, step_ok, check_eq_error (by omega), step_error]

theorem claim_c6_witness :
    (0x30 : Nat) < THUMB_OFFSET ∧
      XGCode.read (XGCODE_MAGIC ++ leEnc 4 THUMB_OFFSET ++ leEnc 4 0x30 ++
          [9, 9, 9, 9]) =
        .error (.ThumbSizeNegative ((0x30 : Int) - (THUMB_OFFSET : Int))) :=
  ⟨by decide, claim_c6 0x30 [9, 9, 9, 9] (by decide)⟩

/-- C7: with correct magic, thumbnail offset 0x3A and payload offset
at least 0x3A, a differing second offset field makes decode fail
with SecondGOffsetNotFound. -/
theorem claim_c7 (off1 off2 : Nat) (rest : List Nat)
    (h1 : off1 < 4294967296) (h2 : off2 < 4294967296)
    (hge : THUMB_OFFSET ≤ off1) (hne : off1 ≠ off2) :
    XGCode.read (XGCODE_MAGIC ++ leEnc 4 THUMB_OFFSET ++ leEnc 4 off1 ++
        leEnc 4 off2 ++ rest) = .error .SecondGOffsetNotFound := by
  have hTO : THUMB_OFFSET < 4294967296 := by decide
  unfold XGCode.read
  simp only [List.append_assoc]
  rw [readExact_magic, step_ok, check_eq_ok rfl, step_ok,
    readU32_leEnc _ _ hTO, step_ok, check_eq_ok rfl, step_ok,
    readU32_leEnc _ _ h1, step_ok, check_eq_ok hge, step_ok,
    readU32_leEnc _ _ h2, step_ok, check_eq_error hne, step_error]

theorem claim_c7_witness :
    (0x3A : Nat) < 4294967296 ∧ (0x3B : Nat) < 4294967296 ∧
      THUMB_OFFSET ≤ 0x3A ∧ (0x3A : Nat) ≠ 0x3B ∧
      XGCode.read (XGCODE_MAGIC ++ leEnc 4 THUMB_OFFSET ++ leEnc 4 0x3A ++
          leEnc 4 0x3B ++ List.replicate 30 0) =
        .error .SecondGOffsetNotFound :=
  ⟨by decide, by decide, by decide, by decide,
   claim_c7 0x3A 0x3B (List.replicate 30 0) (by decide) (by decide) (by decide)
     (by decide)⟩

/-- C10: the minimal well-formed input of exactly 0x3A bytes (magic,
thumbnail offset 0x3A, both payload offsets 0x3A, the 12 header
fields) decodes into a document with empty thumbnail and empty
payload; end of stream right after the thumbnail is not an error. -/
theorem claim_c10 (h : Header) (hwf : h.Wf) :
    (XGCODE_MAGIC ++ leEnc 4 THUMB_OFFSET ++ leEnc 4 THUMB_OFFSET ++
        leEnc 4 THUMB_OFFSET ++ h.bytes).length = 0x3A ∧
      XGCode.read (XGCODE_MAGIC ++ leEnc 4 THUMB_OFFSET ++ leEnc 4 THUMB_OFFSET ++
          leEnc 4 THUMB_OFFSET ++ h.bytes) = .ok ⟨h, [], []⟩ := by
  have hr := read_serialize h [] [] hwf (by decide)
  constructor
  · simp [List.length_append, XGCODE_MAGIC_length, leEnc_length,
      Header.bytes_length]
  · simpa [serialize, List.append_nil] using hr

theorem claim_c10_witness :
    Header.Wf ⟨0, 0, 0, 0, 0, 0, 0, 0, 0, 0, 0, 0⟩ ∧
      ((XGCODE_MAGIC ++ leEnc 4 THUMB_OFFSET ++ leEnc 4 THUMB_OFFSET ++
          leEnc 4 THUMB_OFFSET ++
          Header.bytes ⟨0, 0, 0, 0, 0, 0, 0, 0, 0, 0, 0, 0⟩).length = 0x3A ∧
        XGCode.read (XGCODE_MAGIC ++ leEnc 4 THUMB_OFFSET ++
            leEnc 4 THUMB_OFFSET ++ leEnc 4 THUMB_OFFSET ++
            Header.bytes ⟨0, 0, 0, 0, 0, 0, 0, 0, 0, 0, 0, 0⟩) =
          .ok ⟨⟨0, 0, 0, 0, 0, 0, 0, 0, 0, 0, 0, 0⟩, [], []⟩) :=
  ⟨by decide, claim_c10 ⟨0, 0, 0, 0, 0, 0, 0, 0, 0, 0, 0, 0⟩ (by decide)⟩

/-- C9: a stream shorter than 16 bytes makes decode fail with the IO
error of the initial exact read, not with BadMagic. -/
theorem claim_c9 (s : List Nat) (h : s.length < 16) :
    XGCode.read s = .error .IoError := by
  unfold XGCode.read
  rw [readExact_short h, step_error]

theorem claim_c9_witness :
    ([] : List Nat).length < 16 ∧ XGCode.read [] = .error .IoError :=
  ⟨by decide, claim_c9 [] (by decide)⟩

end XG
